import Mathlib

/-!
Shallow embedding of `physo/learn/loss.py`: a REINFORCE-style
policy-gradient loss with entropy regularization and a length mask,
for training a sequence model emitting symbolic-program tokens.

Tensors of fixed shape `(T, N, C)` (time step, sample, choice) are
embedded as functions `Fin T → Fin N → Fin C → ℝ`; real arithmetic
models the pure-math contract of the float computation.  The numpy
`tile`/`arange`/`transpose` plumbing used to build the masks is
embedded structurally so that the derived mask formulas are theorems
rather than definitions.
-/

/-- numpy `np.arange(0, T)`: the vector `0, 1, ..., T-1`. -/
def np_arange (T : ℕ) : Fin T → ℕ := fun t => (t : ℕ)

/-- numpy `np.tile(v, (n, 1))` for a 1-D array `v` of length `m`:
stacks `n` copies of `v` as the rows of an `(n, m)` array. -/
def np_tile_row {m : ℕ} {α : Type} (n : ℕ) (v : Fin m → α) :
    Fin n → Fin m → α := fun _ j => v j

/-- numpy / torch 2-D `transpose`. -/
def np_transpose {m n : ℕ} {α : Type} (A : Fin m → Fin n → α) :
    Fin n → Fin m → α := fun j i => A i j

/-- Embeds `safe_logq = torch.where(p == 0, torch.ones_like(logq), logq)`:
`logq` with entries replaced by `1` exactly where `p == 0`. -/
def safe_logq {α : Type} [Zero α] [One α] [DecidableEq α] {C : ℕ}
    (p logq : Fin C → α) : Fin C → α :=
  fun c => if p c = 0 then 1 else logq c

/-- Embeds `safe_cross_entropy(p, logq, dim)` from `loss.py`, for reduction along
the last axis of same-shape vectors: `-torch.sum(p * safe_logq, dim)`.
Polymorphic in the scalar type, exactly as the torch code is generic in
dtype: instantiated at `ℝ` inside the loss and at the IEEE-like value
type `FVal` below to reason about the `0 · (-∞)` guard. -/
def safe_cross_entropy {α : Type} [Zero α] [One α] [Mul α] [Neg α] [Add α]
    [DecidableEq α] {C : ℕ} (p logq : Fin C → α) : α :=
  -(List.ofFn (fun c => p c * safe_logq p logq c)).sum

/-- Embeds `mask_length` from `loss_func`, built exactly as in the source:
`(np.tile(np.arange(0, T), (N, 1)) < np.tile(lengths, (T, 1)).transpose()).transpose().astype(float)`. -/
noncomputable def mask_length (T N : ℕ) (lengths : Fin N → ℕ) :
    Fin T → Fin N → ℝ :=
  np_transpose (fun n t =>
    if np_tile_row N (np_arange T) n t
        < np_transpose (np_tile_row T lengths) n t then (1 : ℝ) else 0)

/-- Embeds `entropy_gamma_decay = np.array([gamma_decay ** t for t in range(T)])`. -/
noncomputable def entropy_gamma_decay (T : ℕ) (gamma_decay : ℝ) :
    Fin T → ℝ := fun t => gamma_decay ^ (t : ℕ)

/-- Embeds `entropy_decay_mask = np.tile(entropy_gamma_decay, (N, 1)).transpose() * mask_length_np`. -/
noncomputable def entropy_decay_mask (T N : ℕ) (gamma_decay : ℝ)
    (lengths : Fin N → ℕ) : Fin T → Fin N → ℝ :=
  fun t n =>
    np_transpose (np_tile_row N (entropy_gamma_decay T gamma_decay)) t n *
      mask_length T N lengths t n

/-- Embeds `torch.nn.functional.softmax(x, dim)` along the last axis. -/
noncomputable def softmax {C : ℕ} (x : Fin C → ℝ) : Fin C → ℝ :=
  fun c => Real.exp (x c) / ∑ c', Real.exp (x c')

/-- Embeds `torch.nn.functional.log_softmax(x, dim)` along the last axis,
in its log-sum-exp form `x c - log Σ exp`. -/
noncomputable def log_softmax {C : ℕ} (x : Fin C → ℝ) : Fin C → ℝ :=
  fun c => x c - Real.log (∑ c', Real.exp (x c'))

/-- Embeds `neglogp_per_step = safe_cross_entropy(ideal_probs_train, logprobs, dim=2)`. -/
noncomputable def neglogp_per_step {T N C : ℕ}
    (logits_train ideal_probs_train : Fin T → Fin N → Fin C → ℝ) :
    Fin T → Fin N → ℝ :=
  fun t n => safe_cross_entropy (ideal_probs_train t n)
    (log_softmax (logits_train t n))

/-- Embeds `neglogp = torch.sum(neglogp_per_step * mask_length, dim=0)`. -/
noncomputable def neglogp {T N C : ℕ}
    (logits_train ideal_probs_train : Fin T → Fin N → Fin C → ℝ)
    (lengths : Fin N → ℕ) : Fin N → ℝ :=
  fun n => ∑ t, neglogp_per_step logits_train ideal_probs_train t n *
    mask_length T N lengths t n

/-- Embeds `torch.mean` of a 1-D tensor of length `N`. -/
noncomputable def tmean {N : ℕ} (v : Fin N → ℝ) : ℝ := (∑ n, v n) / N

/-- Embeds `loss_gp = torch.mean((R_train - baseline) * neglogp)`. -/
noncomputable def loss_gp {T N C : ℕ}
    (logits_train ideal_probs_train : Fin T → Fin N → Fin C → ℝ)
    (R_train : Fin N → ℝ) (baseline : ℝ) (lengths : Fin N → ℕ) : ℝ :=
  tmean (fun n => (R_train n - baseline) *
    neglogp logits_train ideal_probs_train lengths n)

/-- Embeds `entropy_per_step = safe_cross_entropy(probs, logprobs, dim=2)`. -/
noncomputable def entropy_per_step {T N C : ℕ}
    (logits_train : Fin T → Fin N → Fin C → ℝ) : Fin T → Fin N → ℝ :=
  fun t n => safe_cross_entropy (softmax (logits_train t n))
    (log_softmax (logits_train t n))

/-- Embeds `entropy = torch.sum(entropy_per_step * entropy_decay_mask, dim=0)`. -/
noncomputable def entropy {T N C : ℕ}
    (logits_train : Fin T → Fin N → Fin C → ℝ) (gamma_decay : ℝ)
    (lengths : Fin N → ℕ) : Fin N → ℝ :=
  fun n => ∑ t, entropy_per_step logits_train t n *
    entropy_decay_mask T N gamma_decay lengths t n

/-- Embeds `loss_entropy = -entropy_weight * torch.mean(entropy)`. -/
noncomputable def loss_entropy {T N C : ℕ}
    (logits_train : Fin T → Fin N → Fin C → ℝ) (gamma_decay : ℝ)
    (lengths : Fin N → ℕ) (entropy_weight : ℝ) : ℝ :=
  -entropy_weight * tmean (entropy logits_train gamma_decay lengths)

/-- Embeds `loss_func` from `loss.py`: `loss = loss_gp + loss_entropy`. -/
noncomputable def loss_func {T N C : ℕ}
    (logits_train ideal_probs_train : Fin T → Fin N → Fin C → ℝ)
    (R_train : Fin N → ℝ) (baseline : ℝ) (lengths : Fin N → ℕ)
    (gamma_decay entropy_weight : ℝ) : ℝ :=
  loss_gp logits_train ideal_probs_train R_train baseline lengths +
    loss_entropy logits_train gamma_decay lengths entropy_weight

/-- Rewriting `safe_cross_entropy` over `ℝ` as a `Finset` sum. -/
theorem safe_cross_entropy_real {C : ℕ} (p logq : Fin C → ℝ) :
    safe_cross_entropy p logq = -∑ c, p c * safe_logq p logq c := by
  rw [safe_cross_entropy, List.sum_ofFn]

/-- Pointwise value of the numpy-built length mask. -/
theorem mask_length_apply (T N : ℕ) (lengths : Fin N → ℕ) (t : Fin T)
    (n : Fin N) :
    mask_length T N lengths t n = if (t : ℕ) < lengths n then 1 else 0 := rfl

/-- Pointwise value of the entropy decay mask. -/
theorem entropy_decay_mask_apply (T N : ℕ) (gamma_decay : ℝ)
    (lengths : Fin N → ℕ) (t : Fin T) (n : Fin N) :
    entropy_decay_mask T N gamma_decay lengths t n
      = gamma_decay ^ (t : ℕ) * mask_length T N lengths t n := rfl

/-- An IEEE-754-like scalar value: NaN, the two infinities, or a finite
value (represented exactly by a rational).  Models the float dtype of
the torch tensors where the distinction between `0 * (-inf) = NaN` and
`0 * 1 = 0` is meaningful, which `ℝ` cannot express. -/
inductive FVal : Type where
  | nan : FVal
  | pinf : FVal
  | ninf : FVal
  | fin : ℚ → FVal
deriving DecidableEq

/-- IEEE-754 multiplication on `FVal`: NaN is absorbing, and
`0 * (±inf) = NaN`. -/
def FVal.mul : FVal → FVal → FVal
  | nan, _ => nan
  | _, nan => nan
  | pinf, pinf => pinf
  | pinf, ninf => ninf
  | pinf, fin q => if 0 < q then pinf else if q < 0 then ninf else nan
  | ninf, pinf => ninf
  | ninf, ninf => pinf
  | ninf, fin q => if 0 < q then ninf else if q < 0 then pinf else nan
  | fin q, pinf => if 0 < q then pinf else if q < 0 then ninf else nan
  | fin q, ninf => if 0 < q then ninf else if q < 0 then pinf else nan
  | fin a, fin b => fin (a * b)

/-- IEEE-754 addition on `FVal`: NaN is absorbing, and
`(+inf) + (-inf) = NaN`. -/
def FVal.add : FVal → FVal → FVal
  | nan, _ => nan
  | _, nan => nan
  | pinf, pinf => pinf
  | pinf, ninf => nan
  | pinf, fin _ => pinf
  | ninf, pinf => nan
  | ninf, ninf => ninf
  | ninf, fin _ => ninf
  | fin _, pinf => pinf
  | fin _, ninf => ninf
  | fin a, fin b => fin (a + b)

/-- IEEE-754 negation on `FVal`. -/
def FVal.neg : FVal → FVal
  | nan => nan
  | pinf => ninf
  | ninf => pinf
  | fin q => fin (-q)

instance : Zero FVal := ⟨FVal.fin 0⟩

instance : One FVal := ⟨FVal.fin 1⟩

instance : Mul FVal := ⟨FVal.mul⟩

instance : Add FVal := ⟨FVal.add⟩

instance : Neg FVal := ⟨FVal.neg⟩

/-- Finite times finite multiplies the rationals. -/
theorem FVal.fin_mul_fin (a b : ℚ) :
    FVal.fin a * FVal.fin b = FVal.fin (a * b) := rfl

/-- Finite times `-∞` follows the sign, with `0 * (-∞) = NaN`. -/
theorem FVal.fin_mul_ninf (q : ℚ) :
    FVal.fin q * FVal.ninf
      = if 0 < q then FVal.ninf
        else if q < 0 then FVal.pinf else FVal.nan := rfl

/-- C2: `safe_cross_entropy(p, logq, axis)` returns `−Σ_axis p·logq` with
`logq` replaced by `1` exactly where `p == 0`; an entry with `p == 0`
contributes exactly `0` even when `logq = -∞` there (while the unguarded
product `0 * (-∞)` would be NaN), and entries with `p ≠ 0` (in
particular `p > 0`) keep their `logq` unaltered. -/
theorem safe_cross_entropy_zero_guard {C : ℕ} (p logq : Fin C → FVal) :
    safe_cross_entropy p logq
        = -(List.ofFn (fun c => p c * safe_logq p logq c)).sum
      ∧ (∀ c : Fin C, p c = 0 → p c * safe_logq p logq c = 0)
      ∧ (∀ c : Fin C, p c = 0 → logq c = FVal.ninf → p c * logq c = FVal.nan)
      ∧ (∀ c : Fin C, p c ≠ 0 → safe_logq p logq c = logq c) := by
  refine ⟨rfl, ?_, ?_, ?_⟩
  · intro c h
    rw [safe_logq]
    rw [if_pos h, h]
    show FVal.fin 0 * FVal.fin 1 = FVal.fin 0
    rw [FVal.fin_mul_fin, zero_mul]
  · intro c hp hq
    rw [hp, hq]
    show FVal.fin 0 * FVal.ninf = FVal.nan
    rw [FVal.fin_mul_ninf, if_neg (lt_irrefl 0), if_neg (lt_irrefl 0)]
  · intro c h
    rw [safe_logq, if_neg h]

/-- Closed instance of the `safe_cross_entropy` guard: a zero target
entry facing a `-∞` log-probability still contributes exactly `0`. -/
theorem safe_cross_entropy_zero_guard_witness :
    (![FVal.fin 0, FVal.fin 1] : Fin 2 → FVal) 0 *
        safe_logq ![FVal.fin 0, FVal.fin 1] ![FVal.ninf, FVal.fin 3] 0 = 0 :=
  (safe_cross_entropy_zero_guard ![FVal.fin 0, FVal.fin 1]
    ![FVal.ninf, FVal.fin 3]).2.1 0 rfl

/-- C4: the numpy `tile`/`arange`/`transpose` construction of the length
mask yields `length_mask[t,n] = 1` iff `t < lengths[n]`, else `0`. -/
theorem mask_length_eq_indicator (T N : ℕ) (lengths : Fin N → ℕ)
    (t : Fin T) (n : Fin N) :
    mask_length T N lengths t n = if (t : ℕ) < lengths n then 1 else 0 := rfl

/-- C6: with `gamma_decay = 1` the entropy decay mask coincides with the
length mask entrywise. -/
theorem entropy_decay_mask_gamma_one (T N : ℕ) (lengths : Fin N → ℕ)
    (t : Fin T) (n : Fin N) :
    entropy_decay_mask T N 1 lengths t n = mask_length T N lengths t n := by
  rw [entropy_decay_mask_apply, one_pow, one_mul]

/-- C7: with `entropy_weight = 0` the entropy term vanishes and the loss
is exactly the policy-gradient term
`mean_n [(R_train[n] − baseline) · neglogp[n]]`. -/
theorem loss_func_entropy_weight_zero {T N C : ℕ}
    (logits_train ideal_probs_train : Fin T → Fin N → Fin C → ℝ)
    (R_train : Fin N → ℝ) (baseline : ℝ) (lengths : Fin N → ℕ)
    (gamma_decay : ℝ) :
    loss_func logits_train ideal_probs_train R_train baseline lengths
        gamma_decay 0
      = tmean (fun n => (R_train n - baseline) *
          neglogp logits_train ideal_probs_train lengths n) := by
  rw [loss_func, loss_entropy, neg_zero, zero_mul, add_zero, loss_gp]

/-- C10: a sample with `lengths[n] = 0` has an all-zero mask row, hence
`neglogp[n] = 0` and `entropy[n] = 0`, and its policy-gradient summand
`(R_train[n] − baseline) · neglogp[n]` is exactly `0` (it still counts
in the denominator of the mean, which divides by `N` unconditionally). -/
theorem zero_length_sample {T N C : ℕ}
    (logits_train ideal_probs_train : Fin T → Fin N → Fin C → ℝ)
    (R_train : Fin N → ℝ) (baseline gamma_decay : ℝ)
    (lengths : Fin N → ℕ) (n : Fin N) (h : lengths n = 0) :
    (∀ t : Fin T, mask_length T N lengths t n = 0)
      ∧ neglogp logits_train ideal_probs_train lengths n = 0
      ∧ entropy logits_train gamma_decay lengths n = 0
      ∧ (R_train n - baseline) *
          neglogp logits_train ideal_probs_train lengths n = 0 := by
  have hmask : ∀ t : Fin T, mask_length T N lengths t n = 0 := by
    intro t
    rw [mask_length_apply, h]
    simp
  have hnl : neglogp logits_train ideal_probs_train lengths n = 0 := by
    rw [neglogp]
    refine Finset.sum_eq_zero (fun t _ => ?_)
    rw [hmask t, mul_zero]
  have hent : entropy logits_train gamma_decay lengths n = 0 := by
    rw [entropy]
    refine Finset.sum_eq_zero (fun t _ => ?_)
    rw [entropy_decay_mask_apply, hmask t, mul_zero, mul_zero]
  exact ⟨hmask, hnl, hent, by rw [hnl, mul_zero]⟩

/-- Closed instance of the zero-length-sample property at `T = N = C = 1`,
`lengths = [0]`. -/
theorem zero_length_sample_witness :
    (∀ t : Fin 1, mask_length 1 1 (fun _ => 0) t 0 = 0)
      ∧ @neglogp 1 1 1 (fun _ _ _ => 0) (fun _ _ _ => 1) (fun _ => 0) 0 = 0
      ∧ @entropy 1 1 1 (fun _ _ _ => 0) 1 (fun _ => 0) 0 = 0
      ∧ ((fun _ : Fin 1 => (2 : ℝ)) 0 - 0) *
          @neglogp 1 1 1 (fun _ _ _ => 0) (fun _ _ _ => 1)
            (fun _ => 0) 0 = 0 :=
  zero_length_sample (fun _ _ _ => 0) (fun _ _ _ => 1) (fun _ => 2) 0 1
    (fun _ => 0) 0 rfl

/-- C3: mask invariance.  Steps at or beyond a sample's length have a
zero mask entry, and the loss is unchanged when the logits are modified
arbitrarily at those masked steps: two logits tensors that agree at all
positions `(t, n, ·)` with `t < lengths[n]` give the same loss. -/
theorem loss_func_mask_invariance {T N C : ℕ}
    (logits₁ logits₂ ideal_probs_train : Fin T → Fin N → Fin C → ℝ)
    (R_train : Fin N → ℝ) (baseline : ℝ) (lengths : Fin N → ℕ)
    (gamma_decay entropy_weight : ℝ)
    (hagree : ∀ (t : Fin T) (n : Fin N) (c : Fin C),
      (t : ℕ) < lengths n → logits₁ t n c = logits₂ t n c) :
    (∀ (t : Fin T) (n : Fin N), lengths n ≤ (t : ℕ) →
        mask_length T N lengths t n = 0)
      ∧ loss_func logits₁ ideal_probs_train R_train baseline lengths
            gamma_decay entropy_weight
          = loss_func logits₂ ideal_probs_train R_train baseline lengths
            gamma_decay entropy_weight := by
  have hmask0 : ∀ (t : Fin T) (n : Fin N), lengths n ≤ (t : ℕ) →
      mask_length T N lengths t n = 0 := by
    intro t n h
    rw [mask_length_apply, if_neg (not_lt.mpr h)]
  refine ⟨hmask0, ?_⟩
  have hfun : ∀ (t : Fin T) (n : Fin N), (t : ℕ) < lengths n →
      logits₁ t n = logits₂ t n :=
    fun t n h => funext (fun c => hagree t n c h)
  have hnl : ∀ n, neglogp logits₁ ideal_probs_train lengths n
      = neglogp logits₂ ideal_probs_train lengths n := by
    intro n
    rw [neglogp, neglogp]
    refine Finset.sum_congr rfl (fun t _ => ?_)
    by_cases h : (t : ℕ) < lengths n
    · rw [neglogp_per_step, neglogp_per_step, hfun t n h]
    · rw [hmask0 t n (not_lt.mp h), mul_zero, mul_zero]
  have hent : ∀ n, entropy logits₁ gamma_decay lengths n
      = entropy logits₂ gamma_decay lengths n := by
    intro n
    rw [entropy, entropy]
    refine Finset.sum_congr rfl (fun t _ => ?_)
    by_cases h : (t : ℕ) < lengths n
    · rw [entropy_per_step, entropy_per_step, hfun t n h]
    · rw [entropy_decay_mask_apply, hmask0 t n (not_lt.mp h), mul_zero,
        mul_zero, mul_zero]
  rw [loss_func, loss_func, loss_gp, loss_gp, loss_entropy, loss_entropy,
    tmean, tmean, tmean, tmean]
  have h1 : (∑ n, (R_train n - baseline) *
      neglogp logits₁ ideal_probs_train lengths n)
        = ∑ n, (R_train n - baseline) *
      neglogp logits₂ ideal_probs_train lengths n :=
    Finset.sum_congr rfl (fun n _ => by rw [hnl n])
  have h2 : (∑ n, entropy logits₁ gamma_decay lengths n)
      = ∑ n, entropy logits₂ gamma_decay lengths n :=
    Finset.sum_congr rfl (fun n _ => by rw [hent n])
  rw [h1, h2]

/-- Closed instance of mask invariance: with `lengths = [0]` every step
is masked, so replacing all logits `0` by `5` leaves the loss unchanged. -/
theorem loss_func_mask_invariance_witness :
    (∀ (t : Fin 1) (n : Fin 1), (fun _ : Fin 1 => 0) n ≤ (t : ℕ) →
        mask_length 1 1 (fun _ => 0) t n = 0)
      ∧ @loss_func 1 1 1 (fun _ _ _ => 0) (fun _ _ _ => 1)
            (fun _ => 1) 0 (fun _ => 0) 1 1
          = @loss_func 1 1 1 (fun _ _ _ => 5) (fun _ _ _ => 1)
            (fun _ => 1) 0 (fun _ => 0) 1 1 :=
  loss_func_mask_invariance (fun _ _ _ => 0) (fun _ _ _ => 5)
    (fun _ _ _ => 1) (fun _ => 1) 0 (fun _ => 0) 1 1
    (fun _ _ _ h => absurd h (Nat.not_lt_zero _))

/-- Lemma: `log_softmax` is the logarithm of `softmax` (the sum of exponentials
is strictly positive whenever the choice axis is inhabited). -/
theorem log_softmax_eq_log_softmax {C : ℕ} (x : Fin C → ℝ) (c : Fin C) :
    log_softmax x c = Real.log (softmax x c) := by
  have hpos : (0 : ℝ) < ∑ c', Real.exp (x c') :=
    Finset.sum_pos (fun i _ => Real.exp_pos _) ⟨c, Finset.mem_univ c⟩
  show x c - Real.log (∑ c', Real.exp (x c'))
      = Real.log (Real.exp (x c) / ∑ c', Real.exp (x c'))
  rw [Real.log_div (Real.exp_ne_zero _) (ne_of_gt hpos), Real.log_exp]

/-- C5: when the target distribution at a step is one-hot on choice `c`,
the per-step value of `safe_cross_entropy` is the standard negative
log-probability of the chosen class: `-logprobs[t,n,c]`. -/
theorem neglogp_per_step_one_hot {T N C : ℕ}
    (logits_train ideal_probs_train : Fin T → Fin N → Fin C → ℝ)
    (t : Fin T) (n : Fin N) (c : Fin C)
    (h1 : ideal_probs_train t n c = 1)
    (h0 : ∀ c', c' ≠ c → ideal_probs_train t n c' = 0) :
    neglogp_per_step logits_train ideal_probs_train t n
      = -(log_softmax (logits_train t n) c) := by
  rw [neglogp_per_step, safe_cross_entropy_real]
  have hsum : ∑ c', ideal_probs_train t n c' *
      safe_logq (ideal_probs_train t n) (log_softmax (logits_train t n)) c'
        = log_softmax (logits_train t n) c := by
    rw [Finset.sum_eq_single c]
    · rw [safe_logq, if_neg (by rw [h1]; exact one_ne_zero), h1, one_mul]
    · intro b _ hb
      rw [h0 b hb, zero_mul]
    · intro habs
      exact absurd (Finset.mem_univ c) habs
  rw [hsum]

/-- Closed instance of the one-hot property: target `[1, 0]` against
uniform logits `[0, 0]` gives `-logprobs[·,·,0]`. -/
theorem neglogp_per_step_one_hot_witness :
    @neglogp_per_step 1 1 2 (fun _ _ _ => 0) (fun _ _ => ![1, 0]) 0 0
      = -(log_softmax (fun _ : Fin 2 => (0 : ℝ)) 0) :=
  neglogp_per_step_one_hot (fun _ _ _ => 0) (fun _ _ => ![1, 0]) 0 0 0
    rfl
    (by
      intro c' hc'
      fin_cases c'
      · exact absurd rfl hc'
      · rfl)

/-- The spec's loss formula, written from the specification's own words
(section 4.1, steps 1-11): softmax probabilities `exp / Σ exp`,
log-probabilities as the logarithm of the softmax, the indicator length
mask, the decay mask `gamma_decay^t · length_mask`, per-step safe cross
entropies, masked sums over time, means over samples, and the final sum
`loss_gp + loss_entropy`.  Used only to compare against `loss_func`. -/
noncomputable def specLoss {T N C : ℕ}
    (logits_train ideal_probs_train : Fin T → Fin N → Fin C → ℝ)
    (R_train : Fin N → ℝ) (baseline : ℝ) (lengths : Fin N → ℕ)
    (gamma_decay entropy_weight : ℝ) : ℝ :=
  let probs : Fin T → Fin N → Fin C → ℝ := fun t n c =>
    Real.exp (logits_train t n c) / ∑ c', Real.exp (logits_train t n c')
  let logprobs : Fin T → Fin N → Fin C → ℝ := fun t n c =>
    Real.log (probs t n c)
  let lmask : Fin T → Fin N → ℝ := fun t n =>
    if (t : ℕ) < lengths n then 1 else 0
  let dmask : Fin T → Fin N → ℝ := fun t n =>
    gamma_decay ^ (t : ℕ) * lmask t n
  let nlps : Fin T → Fin N → ℝ := fun t n =>
    -∑ c, ideal_probs_train t n c *
      (if ideal_probs_train t n c = 0 then 1 else logprobs t n c)
  let nlp : Fin N → ℝ := fun n => ∑ t, nlps t n * lmask t n
  let lgp : ℝ := (∑ n, (R_train n - baseline) * nlp n) / N
  let eps : Fin T → Fin N → ℝ := fun t n =>
    -∑ c, probs t n c * (if probs t n c = 0 then 1 else logprobs t n c)
  let ent : Fin N → ℝ := fun n => ∑ t, eps t n * dmask t n
  lgp + -entropy_weight * ((∑ n, ent n) / N)

/-- Lemma: `safe_cross_entropy` against a `log_softmax`, with the log-softmax
written as the logarithm of the softmax. -/
theorem safe_cross_entropy_softmax_form {C : ℕ} (p x : Fin C → ℝ) :
    safe_cross_entropy p (log_softmax x)
      = -∑ c, p c * (if p c = 0 then 1 else Real.log (softmax x c)) := by
  rw [safe_cross_entropy_real]
  congr 1
  refine Finset.sum_congr rfl (fun c _ => ?_)
  rw [safe_logq]
  by_cases h : p c = 0
  · rw [if_pos h, if_pos h]
  · rw [if_neg h, if_neg h, log_softmax_eq_log_softmax]

/-- C1: `loss_func` computes exactly the loss of the specification:
`loss = loss_gp + loss_entropy` with
`loss_gp = mean_n[(R_train[n] − baseline) · neglogp[n]]`,
`neglogp[n]` the length-masked sum over time of per-step safe cross
entropies of `ideal_probs_train` against the log-softmax of
`logits_train`, and
`loss_entropy = −entropy_weight · mean_n[entropy[n]]` with `entropy[n]`
the decay-and-length-masked sum over time of per-step entropies of the
softmax of `logits_train`. -/
theorem loss_func_eq_specLoss {T N C : ℕ}
    (logits_train ideal_probs_train : Fin T → Fin N → Fin C → ℝ)
    (R_train : Fin N → ℝ) (baseline : ℝ) (lengths : Fin N → ℕ)
    (gamma_decay entropy_weight : ℝ) :
    loss_func logits_train ideal_probs_train R_train baseline lengths
        gamma_decay entropy_weight
      = specLoss logits_train ideal_probs_train R_train baseline lengths
        gamma_decay entropy_weight := by
  simp only [loss_func, loss_gp, loss_entropy, tmean, neglogp,
    neglogp_per_step, entropy, entropy_per_step, specLoss,
    safe_cross_entropy_softmax_form, mask_length_apply,
    entropy_decay_mask_apply, softmax]

/-- C9: the spec's concrete scenario.  With `T = 2`, `N = 1`, `C = 2`,
`lengths = [1]`, step-0 logits `[0, 0]`, step-1 logits (and step-1
targets) arbitrary, step-0 target `[1, 0]`, `R_train = [1]`,
`baseline = 0`, `gamma_decay = 1`, `entropy_weight = 0`, the loss is
exactly `log 2 ≈ 0.6931`, independently of the masked step-1 values. -/
theorem loss_func_scenario (a b p0 p1 : ℝ) :
    @loss_func 2 1 2 ![![![0, 0]], ![![a, b]]] ![![![1, 0]], ![![p0, p1]]]
      (fun _ => 1) 0 (fun _ => 1) 1 0 = Real.log 2 := by
  simp only [loss_func, loss_gp, loss_entropy, tmean, neglogp,
    neglogp_per_step, safe_cross_entropy_real, safe_logq, log_softmax,
    mask_length_apply, Fin.sum_univ_two, Fin.sum_univ_one,
    Matrix.cons_val_zero, Matrix.cons_val_one, Matrix.head_cons,
    Fin.val_zero, Fin.val_one, Nat.cast_one]
  norm_num [Real.exp_zero]

/-- Dynamically-shaped 1-D tensor: a size and an entry function. -/
structure DT1 (α : Type) where
  size : ℕ
  entry : ℕ → α

/-- Dynamically-shaped 2-D tensor. -/
structure DT2 (α : Type) where
  d0 : ℕ
  d1 : ℕ
  entry : ℕ → ℕ → α

/-- Dynamically-shaped 3-D tensor. -/
structure DT3 (α : Type) where
  d0 : ℕ
  d1 : ℕ
  d2 : ℕ
  entry : ℕ → ℕ → ℕ → α

/-- numpy/torch broadcasting of one dimension pair: equal sizes pass
through, a size of `1` is stretched to the other size, anything else is
a shape-mismatch error. -/
def bcastDim (a b : ℕ) : Option ℕ :=
  if a = b then some a
  else if a = 1 then some b
  else if b = 1 then some a
  else none

/-- Index into a dimension of size `a` that may have been stretched by
broadcasting: a stretched (size-1) dimension always reads position 0. -/
def bIdx (a i : ℕ) : ℕ := if a = 1 then 0 else i

/-- Elementwise binary operation with numpy/torch broadcasting, rank 1. -/
def dmap1 {α β γ : Type} (f : α → β → γ) (A : DT1 α) (B : DT1 β) :
    Option (DT1 γ) := do
  let d ← bcastDim A.size B.size
  some ⟨d, fun i => f (A.entry (bIdx A.size i)) (B.entry (bIdx B.size i))⟩

/-- Elementwise binary operation with numpy/torch broadcasting, rank 2. -/
def dmap2 {α β γ : Type} (f : α → β → γ) (A : DT2 α) (B : DT2 β) :
    Option (DT2 γ) := do
  let d0 ← bcastDim A.d0 B.d0
  let d1 ← bcastDim A.d1 B.d1
  some ⟨d0, d1, fun i j =>
    f (A.entry (bIdx A.d0 i) (bIdx A.d1 j))
      (B.entry (bIdx B.d0 i) (bIdx B.d1 j))⟩

/-- Elementwise binary operation with numpy/torch broadcasting, rank 3. -/
def dmap3 {α β γ : Type} (f : α → β → γ) (A : DT3 α) (B : DT3 β) :
    Option (DT3 γ) := do
  let d0 ← bcastDim A.d0 B.d0
  let d1 ← bcastDim A.d1 B.d1
  let d2 ← bcastDim A.d2 B.d2
  some ⟨d0, d1, d2, fun i j k =>
    f (A.entry (bIdx A.d0 i) (bIdx A.d1 j) (bIdx A.d2 k))
      (B.entry (bIdx B.d0 i) (bIdx B.d1 j) (bIdx B.d2 k))⟩

/-- numpy/torch 2-D transpose for dynamic tensors. -/
def dtranspose2 {α : Type} (A : DT2 α) : DT2 α :=
  ⟨A.d1, A.d0, fun i j => A.entry j i⟩

/-- numpy `np.tile(v, (n, 1))` for dynamic tensors. -/
def dtile_row {α : Type} (n : ℕ) (v : DT1 α) : DT2 α :=
  ⟨n, v.size, fun _ j => v.entry j⟩

/-- numpy `<` comparison of integer arrays followed by `astype(float)`,
with broadcasting. -/
def np_lt_mask (A B : DT2 ℕ) : Option (DT2 ℝ) :=
  dmap2 (fun a b => if a < b then (1 : ℝ) else 0) A B

/-- Embeds `torch.nn.functional.softmax(x, dim=2)` on a dynamic rank-3 tensor. -/
noncomputable def dsoftmax (x : DT3 ℝ) : DT3 ℝ :=
  ⟨x.d0, x.d1, x.d2, fun t n c =>
    Real.exp (x.entry t n c) /
      ∑ k ∈ Finset.range x.d2, Real.exp (x.entry t n k)⟩

/-- Embeds `torch.nn.functional.log_softmax(x, dim=2)` on a dynamic rank-3
tensor, in log-sum-exp form. -/
noncomputable def dlog_softmax (x : DT3 ℝ) : DT3 ℝ :=
  ⟨x.d0, x.d1, x.d2, fun t n c =>
    x.entry t n c -
      Real.log (∑ k ∈ Finset.range x.d2, Real.exp (x.entry t n k))⟩

/-- Embeds `torch.sum(x, dim=2)` on a dynamic rank-3 tensor. -/
noncomputable def dsum2 (x : DT3 ℝ) : DT2 ℝ :=
  ⟨x.d0, x.d1, fun i j => ∑ k ∈ Finset.range x.d2, x.entry i j k⟩

/-- Elementwise negation of a dynamic rank-2 tensor. -/
noncomputable def dneg2 (x : DT2 ℝ) : DT2 ℝ :=
  ⟨x.d0, x.d1, fun i j => -(x.entry i j)⟩

/-- Embeds `torch.sum(x, dim=0)` on a dynamic rank-2 tensor. -/
noncomputable def dsum0 (x : DT2 ℝ) : DT1 ℝ :=
  ⟨x.d1, fun j => ∑ i ∈ Finset.range x.d0, x.entry i j⟩

/-- Embeds `torch.mean` of a dynamic 1-D tensor. -/
noncomputable def dmean (v : DT1 ℝ) : ℝ :=
  (∑ i ∈ Finset.range v.size, v.entry i) / v.size

/-- Embeds `safe_cross_entropy` on dynamic tensors:
`torch.where(p == 0, torch.ones_like(logq), logq)` (the condition is
broadcast from `p`'s shape, both branches carry `logq`'s shape), the
broadcast product with `p`, and `-torch.sum(·, dim=2)`. -/
noncomputable def dsafe_cross_entropy (p logq : DT3 ℝ) : Option (DT2 ℝ) := do
  let safe ← dmap3 (fun pv lv => if pv = 0 then (1 : ℝ) else lv) p logq
  let pr ← dmap3 (fun a b => a * b) p safe
  some (dneg2 (dsum2 pr))

/-- Embeds `loss_func` on dynamically-shaped tensors, following the source line
by line with `T, N` read off `ideal_probs_train.shape` and every
numpy/torch elementwise operation carrying its broadcasting shape
check; a shape-mismatch error is `none`. -/
noncomputable def loss_func_dyn (logits_train ideal_probs_train : DT3 ℝ)
    (R_train : DT1 ℝ) (baseline : ℝ) (lengths : DT1 ℕ)
    (gamma_decay entropy_weight : ℝ) : Option ℝ := do
  let max_time_step := ideal_probs_train.d0
  let n_train := ideal_probs_train.d1
  let cmp ← np_lt_mask
    (dtile_row n_train ⟨max_time_step, fun t => t⟩)
    (dtranspose2 (dtile_row max_time_step lengths))
  let mask_len := dtranspose2 cmp
  let decay_mask ← dmap2 (fun a b => a * b)
    (dtranspose2 (dtile_row n_train
      ⟨max_time_step, fun t => gamma_decay ^ t⟩))
    mask_len
  let probs := dsoftmax logits_train
  let logprobs := dlog_softmax logits_train
  let nlp_per_step ← dsafe_cross_entropy ideal_probs_train logprobs
  let nlp_masked ← dmap2 (fun a b => a * b) nlp_per_step mask_len
  let nlp := dsum0 nlp_masked
  let advantage : DT1 ℝ := ⟨R_train.size, fun i => R_train.entry i - baseline⟩
  let weighted ← dmap1 (fun a b => a * b) advantage nlp
  let lgp := dmean weighted
  let ent_per_step ← dsafe_cross_entropy probs logprobs
  let ent_masked ← dmap2 (fun a b => a * b) ent_per_step decay_mask
  let ent := dsum0 ent_masked
  let lent := -entropy_weight * dmean ent
  some (lgp + lent)

/-- C8 counterexample: a concrete input whose `lengths` has size 1 while
`N = 2` — the dimensions disagree — yet the call does not fail: numpy
broadcasting stretches the size-1 dimension and the loss evaluates to
`some 0` instead of surfacing a shape-mismatch error. -/
theorem loss_func_dyn_broadcast_counterexample :
    (⟨1, fun _ => 1⟩ : DT1 ℕ).size
        ≠ (⟨1, 2, 1, fun _ _ _ => (1 : ℝ)⟩ : DT3 ℝ).d1
      ∧ loss_func_dyn ⟨1, 2, 1, fun _ _ _ => 0⟩ ⟨1, 2, 1, fun _ _ _ => 1⟩
          ⟨2, fun _ => 1⟩ 0 ⟨1, fun _ => 1⟩ 1 0 = some 0 := by
  constructor
  · decide
  · simp [loss_func_dyn, np_lt_mask, dmap1, dmap2, dmap3, dtile_row,
      dtranspose2, dsoftmax, dlog_softmax, dsafe_cross_entropy, dsum2,
      dsum0, dneg2, dmean, bcastDim, bIdx, Finset.sum_range_one,
      Finset.sum_range_succ, Real.exp_zero, Real.log_one]

/-- C8 amended: a shape disagreement only fails the call when it is not
broadcast-compatible (the two disagreeing sizes differ and neither is
`1`); a disagreement where one size is `1` (as in the counterexample)
is silently broadcast instead.  All three non-broadcastable
disagreement families of the original claim fail with a shape-mismatch
error and return no value: the size of `lengths` against `N` (the
length-mask comparison raises), the choice axis of `logits_train`
against `ideal_probs_train` (the `torch.where` of `safe_cross_entropy`
raises), and the size of `R_train` against `N` (the product
`(R_train - baseline) * neglogp` raises). -/
theorem loss_func_dyn_shape_mismatch_none :
    (∀ (logits_train ideal_probs_train : DT3 ℝ) (R_train : DT1 ℝ)
        (baseline : ℝ) (lengths : DT1 ℕ) (gamma_decay entropy_weight : ℝ),
      lengths.size ≠ ideal_probs_train.d1 → lengths.size ≠ 1 →
      ideal_probs_train.d1 ≠ 1 →
      loss_func_dyn logits_train ideal_probs_train R_train baseline lengths
        gamma_decay entropy_weight = none)
    ∧ (∀ (logits_train ideal_probs_train : DT3 ℝ) (R_train : DT1 ℝ)
        (baseline : ℝ) (lengths : DT1 ℕ) (gamma_decay entropy_weight : ℝ),
      logits_train.d0 = ideal_probs_train.d0 →
      logits_train.d1 = ideal_probs_train.d1 →
      lengths.size = ideal_probs_train.d1 →
      logits_train.d2 ≠ ideal_probs_train.d2 → logits_train.d2 ≠ 1 →
      ideal_probs_train.d2 ≠ 1 →
      loss_func_dyn logits_train ideal_probs_train R_train baseline lengths
        gamma_decay entropy_weight = none)
    ∧ (∀ (logits_train ideal_probs_train : DT3 ℝ) (R_train : DT1 ℝ)
        (baseline : ℝ) (lengths : DT1 ℕ) (gamma_decay entropy_weight : ℝ),
      logits_train.d0 = ideal_probs_train.d0 →
      logits_train.d1 = ideal_probs_train.d1 →
      logits_train.d2 = ideal_probs_train.d2 →
      lengths.size = ideal_probs_train.d1 →
      R_train.size ≠ ideal_probs_train.d1 → R_train.size ≠ 1 →
      ideal_probs_train.d1 ≠ 1 →
      loss_func_dyn logits_train ideal_probs_train R_train baseline lengths
        gamma_decay entropy_weight = none) := by
  refine ⟨?_, ?_, ?_⟩
  · intro logits_train ideal_probs_train R_train baseline lengths
      gamma_decay entropy_weight hL hL1 hN1
    simp [loss_func_dyn, np_lt_mask, dmap2, dtile_row, dtranspose2,
      bcastDim, Ne.symm hL, hL1, hN1]
  · intro logits_train ideal_probs_train R_train baseline lengths
      gamma_decay entropy_weight h0 h1 hLen hC hC1 hCI1
    simp [loss_func_dyn, np_lt_mask, dmap2, dmap3, dsafe_cross_entropy,
      dtile_row, dtranspose2, dsoftmax, dlog_softmax, bcastDim, h0, h1,
      hLen, Ne.symm hC, hC1, hCI1]
  · intro logits_train ideal_probs_train R_train baseline lengths
      gamma_decay entropy_weight h0 h1 h2 hLen hR hR1 hN1
    simp [loss_func_dyn, np_lt_mask, dmap1, dmap2, dmap3,
      dsafe_cross_entropy, dtile_row, dtranspose2, dsoftmax,
      dlog_softmax, dsum0, dsum2, dneg2, bcastDim, h0, h1, h2, hLen,
      hR, hR1, hN1]

/-- Closed instances of the amended C8, one per disagreement family:
`lengths` of size 3 against `N = 2`, a choice axis of 2 against 3, and
`R_train` of size 3 against `N = 2` all fail with a shape-mismatch
error. -/
theorem loss_func_dyn_shape_mismatch_none_witness :
    loss_func_dyn ⟨1, 2, 1, fun _ _ _ => 0⟩ ⟨1, 2, 1, fun _ _ _ => 1⟩
        ⟨2, fun _ => 1⟩ 0 ⟨3, fun _ => 1⟩ 1 0 = none
      ∧ loss_func_dyn ⟨1, 2, 2, fun _ _ _ => 0⟩ ⟨1, 2, 3, fun _ _ _ => 1⟩
        ⟨2, fun _ => 1⟩ 0 ⟨2, fun _ => 1⟩ 1 0 = none
      ∧ loss_func_dyn ⟨1, 2, 1, fun _ _ _ => 0⟩ ⟨1, 2, 1, fun _ _ _ => 1⟩
        ⟨3, fun _ => 1⟩ 0 ⟨2, fun _ => 1⟩ 1 0 = none :=
  ⟨loss_func_dyn_shape_mismatch_none.1 _ _ _ _ _ _ _ (by decide)
      (by decide) (by decide),
   loss_func_dyn_shape_mismatch_none.2.1 _ _ _ _ _ _ _ rfl rfl rfl
      (by decide) (by decide) (by decide),
   loss_func_dyn_shape_mismatch_none.2.2 _ _ _ _ _ _ _ rfl rfl rfl rfl
      (by decide) (by decide) (by decide)⟩
